import Mathlib

set_option maxHeartbeats 1000000
set_option maxRecDepth 4000

/-!
Verification development for the Bytebase task-executor and PostgreSQL
schema-sync core.  The Go sources `server/task_executor_database_create.go`
and `plugin/db/pg/sync.go` are shallowly embedded below: pure string
processing is translated directly, and the effectful parts (driver, store,
catalog queries) are modelled by explicit oracle inputs and explicit state
passing, with an effect trace recording the operations the code invokes.
-/

deriving instance DecidableEq for Except

namespace Bytebase

/- ### Pure string helpers for the pg sync parser (plugin/db/pg/sync.go).
Strings are modelled as `List Char`.  Go's `strings.TrimSpace` trims
Unicode whitespace; the statements handled here are ASCII, so whitespace
is modelled as space, tab, newline, carriage return, vertical tab and
form feed. -/

def isSpaceChar (c : Char) : Bool :=
  c = ' ' || c = '\t' || c = '\n' || c = '\r' || c.toNat = 11 || c.toNat = 12

/-- Embedding of Go `strings.TrimSpace` on `List Char`. -/
def trimChars (l : List Char) : List Char :=
  ((l.dropWhile isSpaceChar).reverse.dropWhile isSpaceChar).reverse

/-- Embedding of Go `strings.TrimSpace` on `String`. -/
def trimString (s : String) : String :=
  String.mk (trimChars s.data)

/-- Drop everything up to and including the first occurrence of `c`;
`none` when `c` does not occur. -/
def dropAfterFirst (c : Char) : List Char → Option (List Char)
  | [] => none
  | a :: rest => if a = c then some rest else dropAfterFirst c rest

/-- Content strictly before the last `')'` of `l` (`none` when `l` has no
`')'`).  Implemented by scanning the reversal of `l`. -/
def takeBeforeLastClose (l : List Char) : Option (List Char) :=
  match dropAfterFirst ')' l.reverse with
  | none => none
  | some r => some r.reverse

/-- Embedding of the submatch of Go regexp `\((.*)\)` (leftmost match,
greedy `.*`): the content between the first `'('` and the last `')'` of
the statement, provided the first `'('` occurs before the last `')'`.
Index definitions are single-line, so `.*` never meets a newline. -/
def outerParenContent (stmt : List Char) : Option (List Char) :=
  match dropAfterFirst '(' stmt with
  | none => none
  | some rest => takeBeforeLastClose rest

/-- Whether the Go code's `strings.HasPrefix(columnStmt, "((")` holds. -/
def startsWithCC : List Char → Bool
  | '(' :: '(' :: _ => true
  | _ => false

/-- The suffix of `l` starting at the first adjacent pair `))` (`none`
when no such pair exists). -/
def ccSuffix : List Char → Option (List Char)
  | ')' :: ')' :: rest => some (')' :: ')' :: rest)
  | _ :: rest => ccSuffix rest
  | [] => none

/-- Embedding of `regexp.MustCompile("\\(\\(.*\\)\\)").FindString` applied
to a string that begins with `((`: the leftmost match starts at position
0 and the greedy `.*` extends the match through the last `))` of the
string; the empty list models Go's `""` when there is no match. -/
def ccToken (s : List Char) : List Char :=
  match ccSuffix s.reverse with
  | none => []
  | some suf => suf.reverse

/-- Embedding of taking `columnStmt[:strings.Index(columnStmt, ",")]`
(the whole string when there is no comma). -/
def commaToken (s : List Char) : List Char :=
  s.takeWhile (fun c => c ≠ ',')

/-- Embedding of the Go step removing one leading comma. -/
def dropLeadingComma : List Char → List Char
  | ',' :: rest => rest
  | l => l

/-- Embedding of the tokenization loop of `getIndexColumnExpressions`
(sync.go lines 670-702): repeatedly take either a `((...))` expression
token or a token up to the first comma, error (`none`) on an empty
token, and continue on the trimmed remainder with one leading comma
removed. -/
def splitColsLoop (s : List Char) : Option (List (List Char)) :=
  if hs : s = [] then some []
  else
    if ht : (cond (startsWithCC s) (ccToken s) (commaToken s)).length = 0 then none
    else
      match splitColsLoop (trimChars (dropLeadingComma (trimChars
          (s.drop (cond (startsWithCC s) (ccToken s) (commaToken s)).length)))) with
      | none => none
      | some cols =>
        some (trimChars (cond (startsWithCC s) (ccToken s) (commaToken s)) :: cols)
termination_by s.length
decreasing_by
  have hdw : ∀ (l : List Char), (l.dropWhile isSpaceChar).length ≤ l.length :=
    fun _ => (List.dropWhile_sublist _).length_le
  have htrim : ∀ (l : List Char), (trimChars l).length ≤ l.length := by
    intro l
    have h1 := hdw l
    have h2 := hdw (l.dropWhile isSpaceChar).reverse
    simp only [trimChars, List.length_reverse] at h2 ⊢
    omega
  have hdc : ∀ (l : List Char), (dropLeadingComma l).length ≤ l.length := by
    intro l
    unfold dropLeadingComma
    split
    · simp
    · exact Nat.le_refl _
  have hlen : 0 < s.length := List.length_pos.mpr hs
  have hdrop : (s.drop (cond (startsWithCC s) (ccToken s) (commaToken s)).length).length
      = s.length - (cond (startsWithCC s) (ccToken s) (commaToken s)).length :=
    List.length_drop _ _
  have h1 := htrim (s.drop (cond (startsWithCC s) (ccToken s) (commaToken s)).length)
  have h2 := hdc (trimChars (s.drop (cond (startsWithCC s) (ccToken s) (commaToken s)).length))
  have h3 := htrim (dropLeadingComma (trimChars
    (s.drop (cond (startsWithCC s) (ccToken s) (commaToken s)).length)))
  omega

/-- Embedding of `getIndexColumnExpressions` (sync.go lines 662-705):
extract the parenthesized column list of an index definition statement
and split it into column/expression tokens; `none` models the
`invalid index statement` error. -/
def getIndexColumnExpressions (stmt : List Char) : Option (List (List Char)) :=
  match outerParenContent stmt with
  | none => none
  | some columnStmt => splitColsLoop columnStmt

/-- Whether `pat` is a prefix of the first argument list. -/
def startsWithL : List Char → List Char → Bool
  | _, [] => true
  | [], _ :: _ => false
  | c :: s, p :: ps => c = p && startsWithL s ps

/-- Embedding of Go `strings.Contains`. -/
def containsSub (pat : List Char) : List Char → Bool
  | [] => startsWithL [] pat
  | c :: rest => startsWithL (c :: rest) pat || containsSub pat rest

def wordChar (c : Char) : Bool := c.isAlphanum || c = '_'

/-- Embedding of `getIndexMethodType` (sync.go lines 653-660): the first
submatch of regexp "USING (\\w+) " — the leftmost occurrence of
`USING ` followed by at least one word character and a space; the empty
list models Go's `""` when there is no match. -/
def getIndexMethodType : List Char → List Char
  | [] => []
  | c :: rest =>
    if startsWithL (c :: rest) (("USING ").data) then
      let after := (c :: rest).drop 6
      let w := after.takeWhile wordChar
      match after.drop w.length with
      | ' ' :: _ => if w.length = 0 then getIndexMethodType rest else w
      | _ => getIndexMethodType rest
    else getIndexMethodType rest

/- ### Data model of the pg sync engine (plugin/db/pg/sync.go). -/

/-- The fixed denylist of sync.go lines 16-28: the internal `bytebase`
database plus cloud-provider internal databases. -/
def excludedDatabaseList : List String :=
  [("bytebase"), ("rdsadmin"), ("cloudsql"), ("cloudsqladmin")]

/-- Row of the database enumeration (struct `pgDatabaseSchema`). -/
structure PgDatabaseRow where
  name : String
  encoding : String
  collate : String
deriving DecidableEq, Repr

/-- Row of the user enumeration (`db.User`). -/
structure DbUser where
  name : String
  grant : String
deriving DecidableEq, Repr

/-- `db.DatabaseMeta` as assembled by `SyncInstance`. -/
structure DatabaseMeta where
  name : String
  characterSet : String
  collation : String
deriving DecidableEq, Repr

/-- `db.InstanceMeta` as returned by `SyncInstance`. -/
structure InstanceMeta where
  version : String
  userList : List DbUser
  databaseList : List DatabaseMeta
deriving DecidableEq, Repr

/-- Raw row of the `pg_indexes` query together with the results of the
per-index follow-up queries (`getIndex` comment lookup and `getPrimary`
constraint count), which the embedding takes as oracle data. -/
structure IndexRow where
  schemaName : String
  tableName : String
  name : String
  statement : String
  primaryCount : Nat
  comment : String
deriving DecidableEq, Repr

/-- Processed index (struct `indexSchema`). -/
structure IndexSchema where
  schemaName : String
  tableName : String
  name : String
  statement : String
  unique : Bool
  primary : Bool
  methodType : String
  columnExpressions : List String
  comment : String
deriving DecidableEq, Repr

/-- Error-propagating map, mirroring a Go loop that returns on the first
failing element. -/
def mapE (f : α → Except String β) : List α → Except String (List β)
  | [] => .ok []
  | a :: rest =>
    match f a with
    | .error e => .error e
    | .ok b =>
      match mapE f rest with
      | .error e => .error e
      | .ok bs => .ok (b :: bs)

/-- Processing of one `pg_indexes` row inside `getIndices` (sync.go lines
574-599): uniqueness by substring match, method type and column
expressions by the parsing routines, primary flag from the constraint
count. -/
def processIndexRow (r : IndexRow) : Except String IndexSchema :=
  match getIndexColumnExpressions r.statement.data with
  | none => .error (("invalid index statement: ") ++ r.statement)
  | some cols =>
    .ok { schemaName := r.schemaName, tableName := r.tableName, name := r.name,
          statement := r.statement,
          unique := containsSub ((" UNIQUE INDEX ").data) r.statement.data,
          primary := r.primaryCount = 1,
          methodType := String.mk (getIndexMethodType r.statement.data),
          columnExpressions := cols.map String.mk,
          comment := r.comment }

/-- Embedding of `getIndices`: process every row, failing the whole sync
sub-query on the first bad row. -/
def getIndices (rows : List IndexRow) : Except String (List IndexSchema) :=
  mapE processIndexRow rows

/-- Raw row of the `INFORMATION_SCHEMA.COLUMNS` query. -/
structure ColumnRow where
  columnName : String
  dataType : String
  ordinalPosition : Nat
  characterMaximumLength : String
  columnDefault : String
  isNullable : String
  collationName : String
  udtSchema : String
  udtName : String
  comment : String
deriving DecidableEq, Repr

/-- Processed column (struct `columnSchema`). -/
structure ColumnSchema where
  columnName : String
  dataType : String
  ordinalPosition : Nat
  characterMaximumLength : String
  columnDefault : String
  isNullable : Bool
  collationName : String
  comment : String
deriving DecidableEq, Repr

/-- Embedding of `convertBoolFromYesNo`. -/
def convertBoolFromYesNo : String → Except String Bool
  | "YES" => .ok true
  | "NO" => .ok false
  | s => .error (("unrecognized isNullable type ") ++ s)

/-- Processing of one column row in `getTableColumns` (sync.go lines
409-437), including the `USER-DEFINED` and `ARRAY` type resolution. -/
def processColumnRow (r : ColumnRow) : Except String ColumnSchema :=
  match convertBoolFromYesNo r.isNullable with
  | .error e => .error e
  | .ok b =>
    let dt : String :=
      match r.dataType with
      | "USER-DEFINED" => r.udtSchema ++ (".") ++ r.udtName
      | "ARRAY" => r.udtName
      | t => t
    .ok { columnName := r.columnName, dataType := dt,
          ordinalPosition := r.ordinalPosition,
          characterMaximumLength := r.characterMaximumLength,
          columnDefault := r.columnDefault, isNullable := b,
          collationName := r.collationName, comment := r.comment }

/-- Raw row of the `pg_constraint` query. -/
structure ConstraintRow where
  schemaName : String
  tableName : String
  name : String
  constraint : String
deriving DecidableEq, Repr

/-- Embedding of the qualifier stripping in `getTableConstraints`
(sync.go lines 463-465): when the constraint's table name embeds a
schema qualifier, keep only the part after the first dot. -/
def stripSchemaQualifier (s : String) : String :=
  match dropAfterFirst '.' s.data with
  | some rest => String.mk rest
  | none => s

def normalizeConstraintRow (r : ConstraintRow) : ConstraintRow :=
  { r with tableName := stripSchemaQualifier r.tableName }

/-- Constraints attached to the table keyed `schemaName.tableName`, as
built by `getTableConstraints` and consumed in `getPgTables`. -/
def constraintsFor (rows : List ConstraintRow) (schemaName tableName : String) :
    List ConstraintRow :=
  (rows.map normalizeConstraintRow).filter
    (fun r => r.schemaName ++ (".") ++ r.tableName == schemaName ++ (".") ++ tableName)

/-- Raw row of the `pg_tables` query together with the per-table
follow-up query results (row count, comment, column rows) the embedding
takes as oracle data. -/
structure TableRow where
  schemaName : String
  name : String
  tableowner : String
  tableSizeByte : Int
  indexSizeByte : Int
  rowCount : Int
  comment : String
  columnRows : List ColumnRow
deriving DecidableEq, Repr

/-- Processed table (struct `tableSchema`). -/
structure TableSchema where
  schemaName : String
  name : String
  tableowner : String
  comment : String
  rowCount : Int
  tableSizeByte : Int
  indexSizeByte : Int
  columns : List ColumnSchema
  constraints : List ConstraintRow
deriving DecidableEq, Repr

def processTableRow (constraintRows : List ConstraintRow) (tbl : TableRow) :
    Except String TableSchema :=
  match mapE processColumnRow tbl.columnRows with
  | .error e =>
    .error (("getTableColumns(") ++ tbl.schemaName ++ (", ") ++ tbl.name ++ (") got error ") ++ e)
  | .ok cols =>
    .ok { schemaName := tbl.schemaName, name := tbl.name,
          tableowner := tbl.tableowner, comment := tbl.comment,
          rowCount := tbl.rowCount, tableSizeByte := tbl.tableSizeByte,
          indexSizeByte := tbl.indexSizeByte, columns := cols,
          constraints := constraintsFor constraintRows tbl.schemaName tbl.name }

/-- Embedding of `getPgTables` (sync.go lines 300-350): constraints are
gathered first, then every table row is completed with its columns and
its constraint group; any failure aborts the sub-query. -/
def getPgTables (constraintRows : List ConstraintRow) (rows : List TableRow) :
    Except String (List TableSchema) :=
  mapE (processTableRow constraintRows) rows

/-- Raw row of the `pg_views` query: the view definition is `sql.NullString`
(`none` models SQL NULL), the comment is the `getView` follow-up result. -/
structure ViewRow where
  schemaName : String
  name : String
  definition : Option String
  comment : String
deriving DecidableEq, Repr

/-- Processed view (struct `viewSchema`). -/
structure ViewSchema where
  schemaName : String
  name : String
  definition : String
  comment : String
deriving DecidableEq, Repr

/-- Processing of one `pg_views` row inside `getViews` (sync.go lines
487-500): a NULL definition is a hard error for the sync pass. -/
def processViewRow (r : ViewRow) : Except String ViewSchema :=
  match r.definition with
  | none =>
    .error (("schema ") ++ r.schemaName ++ (" view ") ++ r.name ++
      (" has empty definition; please check whether proper privileges have been granted to Bytebase"))
  | some d =>
    .ok { schemaName := r.schemaName, name := r.name, definition := d, comment := r.comment }

/-- Embedding of `getViews`: scan all rows, returning an error on the
first NULL definition. -/
def getViews (rows : List ViewRow) : Except String (List ViewSchema) :=
  mapE processViewRow rows

/-- `db.Extension` row as returned by `getExtensions`. -/
structure DbExtension where
  name : String
  version : String
  schema : String
  description : String
deriving DecidableEq, Repr

/-- `db.Column` of the assembled snapshot. -/
structure DbColumn where
  name : String
  position : Nat
  columnDefault : String
  columnType : String
  nullable : Bool
  collation : String
  comment : String
deriving DecidableEq, Repr

/-- `db.Index` of the assembled snapshot. -/
structure DbIndex where
  name : String
  expression : String
  position : Nat
  methodType : String
  unique : Bool
  primary : Bool
  comment : String
deriving DecidableEq, Repr

/-- `db.Table` of the assembled snapshot. -/
structure DbTable where
  name : String
  tableType : String
  comment : String
  rowCount : Int
  dataSize : Int
  indexSize : Int
  columnList : List DbColumn
  indexList : List DbIndex
deriving DecidableEq, Repr

/-- `db.View` of the assembled snapshot. -/
structure DbView where
  name : String
  createdTs : Int
  definition : String
  comment : String
deriving DecidableEq, Repr

/-- `db.Schema`: the full snapshot assembled by `SyncDBSchema`. -/
structure DbSchema where
  name : String
  characterSet : String
  collation : String
  tableList : List DbTable
  viewList : List DbView
  extensionList : List DbExtension
deriving DecidableEq, Repr

def concatAll : List (List α) → List α
  | [] => []
  | l :: ls => l ++ concatAll ls

/-- One snapshot index entry per column expression, with 1-based
positions (sync.go lines 209-221). -/
def indexToDbIndices (idx : IndexSchema) : List DbIndex :=
  idx.columnExpressions.enum.map (fun ic =>
    { name := idx.name, expression := ic.2, position := ic.1 + 1,
      methodType := idx.methodType, unique := idx.unique,
      primary := idx.primary, comment := idx.comment })

/-- Assembly of one `db.Table` from a processed table and the index map
(sync.go lines 189-224).  The Go code keys the index map by the
concatenation `schemaname.tablename`. -/
def tableToDbTable (indices : List IndexSchema) (tbl : TableSchema) : DbTable :=
  let tname := tbl.schemaName ++ (".") ++ tbl.name
  { name := tname, tableType := ("BASE TABLE"), comment := tbl.comment,
    rowCount := tbl.rowCount, dataSize := tbl.tableSizeByte,
    indexSize := tbl.indexSizeByte,
    columnList := tbl.columns.map (fun col =>
      { name := col.columnName, position := col.ordinalPosition,
        columnDefault := col.columnDefault, columnType := col.dataType,
        nullable := col.isNullable, collation := col.collationName,
        comment := col.comment }),
    indexList := concatAll ((indices.filter
        (fun idx => idx.schemaName ++ (".") ++ idx.tableName == tname)).map indexToDbIndices) }

/-- Oracle inputs of one sync pass: the outcome of every catalog query
the driver issues, in the order the Go code issues them.  Function-level
failures of the Go database/sql layer are the `.error` cases. -/
structure SyncEnv where
  getVersion : Except String String
  getUserList : Except String (List DbUser)
  systemDatabases : List String
  getDatabases : Except String (List PgDatabaseRow)
  getConnection : Except String Unit
  beginTx : Except String Unit
  indexRows : Except String (List IndexRow)
  constraintRows : Except String (List ConstraintRow)
  tableRows : Except String (List TableRow)
  viewRows : Except String (List ViewRow)
  extensionRows : Except String (List DbExtension)
  commitTx : Except String Unit
  nowTs : Int

/-- Embedding of `SyncInstance` (sync.go lines 94-137).  The field
`systemDatabases` stands for the engine's system-database name set that
`SyncInstance` merges into the denylist; that set is declared elsewhere
in the pg plugin.  Modelled from the spec: a fixed set of
engine-internal database names, excluded by exact match. -/
def syncInstance (env : SyncEnv) : Except String InstanceMeta :=
  match env.getVersion with
  | .error e => .error e
  | .ok version =>
  match env.getUserList with
  | .error e => .error e
  | .ok userList =>
  match env.getDatabases with
  | .error e => .error (("failed to get databases: ") ++ e)
  | .ok databases =>
    .ok { version := version, userList := userList,
          databaseList := (databases.filter (fun d =>
              !(decide (d.name ∈ excludedDatabaseList) ||
                decide (d.name ∈ env.systemDatabases)))).map
            (fun d => { name := d.name, characterSet := d.encoding, collation := d.collate }) }

/-- Error classification of `SyncDBSchema`: `common.Errorf(common.NotFound, ...)`
against plain query failures. -/
inductive SyncErr where
  | notFound (msg : String)
  | failure (msg : String)
deriving DecidableEq, Repr

/-- Result of one `SyncDBSchema` pass, plus whether a connection to the
target database was opened (`GetDBConnection`). -/
structure SyncOutcome where
  result : Except SyncErr DbSchema
  openedConnection : Bool
deriving DecidableEq, Repr

/-- Embedding of `SyncDBSchema` (sync.go lines 140-252): enumerate the
databases, require the requested name to be found (taking its character
set and collation from the first matching entry), open a connection and
a transaction, run the sub-queries in source order, and assemble the
snapshot only after every one of them succeeded. -/
def syncDBSchema (env : SyncEnv) (databaseName : String) : SyncOutcome :=
  match env.getDatabases with
  | .error e =>
    { result := .error (.failure (("failed to get databases: ") ++ e)), openedConnection := false }
  | .ok databases =>
  match databases.find? (fun d => d.name == databaseName) with
  | none =>
    { result := .error (.notFound (("database ") ++ databaseName ++ (" not found"))),
      openedConnection := false }
  | some d =>
  match env.getConnection with
  | .error e =>
    { result := .error (.failure (("failed to get database connection for ") ++ databaseName ++ (": ") ++ e)),
      openedConnection := true }
  | .ok _ =>
  match env.beginTx with
  | .error e => { result := .error (.failure e), openedConnection := true }
  | .ok _ =>
  match env.indexRows with
  | .error e =>
    { result := .error (.failure (("failed to get indices from database ") ++ databaseName ++ (": ") ++ e)),
      openedConnection := true }
  | .ok irows =>
  match getIndices irows with
  | .error e =>
    { result := .error (.failure (("failed to get indices from database ") ++ databaseName ++ (": ") ++ e)),
      openedConnection := true }
  | .ok indices =>
  match env.constraintRows with
  | .error e =>
    { result := .error (.failure (("failed to get tables from database ") ++ databaseName ++ (": ") ++ e)),
      openedConnection := true }
  | .ok crows =>
  match env.tableRows with
  | .error e =>
    { result := .error (.failure (("failed to get tables from database ") ++ databaseName ++ (": ") ++ e)),
      openedConnection := true }
  | .ok trows =>
  match getPgTables crows trows with
  | .error e =>
    { result := .error (.failure (("failed to get tables from database ") ++ databaseName ++ (": ") ++ e)),
      openedConnection := true }
  | .ok tables =>
  match env.viewRows with
  | .error e =>
    { result := .error (.failure (("failed to get views from database ") ++ databaseName ++ (": ") ++ e)),
      openedConnection := true }
  | .ok vrows =>
  match getViews vrows with
  | .error e =>
    { result := .error (.failure (("failed to get views from database ") ++ databaseName ++ (": ") ++ e)),
      openedConnection := true }
  | .ok views =>
  match env.extensionRows with
  | .error e =>
    { result := .error (.failure (("failed to get extensions from database ") ++ databaseName ++ (": ") ++ e)),
      openedConnection := true }
  | .ok exts =>
  match env.commitTx with
  | .error e => { result := .error (.failure e), openedConnection := true }
  | .ok _ =>
    { result := .ok
        { name := databaseName, characterSet := d.encoding, collation := d.collate,
          tableList := tables.map (tableToDbTable indices),
          viewList := views.map (fun v =>
            { name := v.schemaName ++ (".") ++ v.name, createdTs := env.nowTs,
              definition := v.definition, comment := v.comment }),
          extensionList := exts },
      openedConnection := true }

/- ### Data model of the database-create task executor
(server/task_executor_database_create.go). -/

/-- `api.TaskDatabaseCreatePayload` fields used by the executor. -/
structure TaskDatabaseCreatePayload where
  projectID : Nat
  databaseName : String
  statement : String
  characterSet : String
  collation : String
  labels : String
  schemaVersion : String
deriving DecidableEq, Repr

structure Principal where
  name : String
deriving DecidableEq, Repr

structure Issue where
  id : Nat
deriving DecidableEq, Repr

structure Project where
  id : Nat
deriving DecidableEq, Repr

/-- The task handed to `RunOnce`, with the instance attributes the
executor reads.  `payload = none` models a payload that fails JSON
unmarshalling. -/
structure ApiTask where
  id : Nat
  creatorID : Nat
  pipelineID : Nat
  instanceID : Nat
  instanceName : String
  instanceEnvironmentID : Nat
  instanceEnvironmentName : String
  payload : Option TaskDatabaseCreatePayload
deriving Repr

inductive MigrationSource where
  | UI
deriving DecidableEq, Repr

inductive MigrationType where
  | Baseline
deriving DecidableEq, Repr

/-- `db.MigrationInfo` as composed by the executor (lines 65-106). -/
structure MigrationInfo where
  releaseVersion : String
  version : String
  nameSpace : String
  database : String
  environment : String
  source : MigrationSource
  migrationType : MigrationType
  description : String
  creator : String
  issueID : String
  createDatabase : Bool
  force : Bool
deriving DecidableEq, Repr

/-- `api.TaskRunResultPayload` fields produced by the executor. -/
structure TaskRunResultPayload where
  detail : String
  migrationID : Nat
  version : String
deriving DecidableEq, Repr

/-- One database row of the store.  Modelled from the spec: the store is
the transactional repository of record for databases (§6); its
implementation is outside the embedded sources. -/
structure DatabaseRow where
  id : Nat
  creatorID : Nat
  projectID : Nat
  instanceID : Nat
  environmentID : Nat
  name : String
  characterSet : String
  collation : String
  labels : String
  schemaVersion : String
deriving DecidableEq, Repr

/-- The database table of the store, with the next fresh row id. -/
structure DbStore where
  rows : List DatabaseRow
  nextID : Nat
deriving DecidableEq, Repr

/-- `api.DatabaseCreate` as built by the executor (lines 125-135). -/
structure DatabaseCreate where
  creatorID : Nat
  projectID : Nat
  instanceID : Nat
  environmentID : Nat
  name : String
  characterSet : String
  collation : String
  labels : String
  schemaVersion : String
deriving DecidableEq, Repr

/-- `api.DatabasePatch` as built by the executor (line 144). -/
structure DatabasePatch where
  id : Nat
  updaterID : Nat
  projectID : Option Nat
deriving DecidableEq, Repr

/-- `api.TaskPatch` as built by the executor (lines 156-160). -/
structure TaskPatch where
  id : Nat
  updaterID : Nat
  databaseID : Option Nat
deriving DecidableEq, Repr

/-- `api.SystemBotID`; the constant's value lives outside the embedded
sources and no claim depends on it. -/
def systemBotID : Nat := 1

def dbKeyMatch (instanceID : Nat) (name : String) (r : DatabaseRow) : Bool :=
  decide (r.instanceID = instanceID ∧ r.name = name)

/-- Modelled from the spec: `store.GetDatabase` with an (instance, name)
find — returns the matching row or nothing (§6 store contract). -/
def storeGetDatabase (s : DbStore) (instanceID : Nat) (name : String) : Option DatabaseRow :=
  s.rows.find? (dbKeyMatch instanceID name)

/-- Modelled from the spec: `store.CreateDatabase` — appends one new row
with the requested attributes under a fresh id (§6 store contract). -/
def storeCreateDatabase (s : DbStore) (c : DatabaseCreate) : DatabaseRow × DbStore :=
  let row : DatabaseRow :=
    { id := s.nextID, creatorID := c.creatorID, projectID := c.projectID,
      instanceID := c.instanceID, environmentID := c.environmentID,
      name := c.name, characterSet := c.characterSet, collation := c.collation,
      labels := c.labels, schemaVersion := c.schemaVersion }
  (row, { rows := s.rows ++ [row], nextID := s.nextID + 1 })

/-- Modelled from the spec: `store.PatchDatabase` — updates exactly the
fields carried by the patch (here only the project reference) on the row
with the given id, leaving every other attribute unchanged (§4.2, §6). -/
def storePatchDatabase (s : DbStore) (p : DatabasePatch) : Except String (DatabaseRow × DbStore) :=
  match s.rows.find? (fun r => r.id == p.id) with
  | none => .error (("database ID not found: ") ++ toString p.id)
  | some r =>
    let r' : DatabaseRow :=
      match p.projectID with
      | none => r
      | some pid => { r with projectID := pid }
    .ok (r', { s with rows := s.rows.map (fun q => if q.id = p.id then r' else q) })

/-- Operations the executor invokes on the driver and the store, in
invocation order. -/
inductive Effect where
  | openDriver
  | closeDriver
  | execMigration (mi : MigrationInfo) (statement : String)
  | getDatabase (instanceID : Nat) (name : String)
  | createDatabase (c : DatabaseCreate)
  | patchDatabase (p : DatabasePatch)
  | patchTask (p : TaskPatch)
  | setLabels
deriving DecidableEq, Repr

/-- Oracle inputs of one `RunOnce` attempt: the outcome of every driver
and store call whose behaviour is outside the embedded sources.  The
`...Err` fields inject transport failures into the otherwise
deterministic store model (`none` = the store call succeeds). -/
structure Env where
  profileVersion : String
  getAdminDriver : Except String Unit
  getPrincipalByID : Nat → Except String Principal
  getIssueByPipelineID : Nat → Except String (Option Issue)
  executeMigration : MigrationInfo → String → Except String (Nat × String)
  getDatabaseErr : Option String
  createDatabaseErr : Option String
  patchDatabaseErr : Option String
  patchTaskErr : Option String
  getProjectByID : Nat → Except String (Option Project)
  setDatabaseLabels : Except String Unit

/-- Modelled from the spec: the Migration Executor "returns a migration
id and echoes back the effective version" (§4.3); its implementation is
outside the embedded sources.  An environment has the echo property when
every successful `ExecuteMigration` returns the descriptor's version. -/
def echoesVersion (env : Env) : Prop :=
  ∀ mi stmt id v, env.executeMigration mi stmt = .ok (id, v) → v = mi.version

/-- Result of one `RunOnce` attempt: the returned triple, the completion
flag after the deferred `atomic.StoreInt32`, the store state, and the
effect trace. -/
structure RunResult where
  terminated : Bool
  result : Option TaskRunResultPayload
  error : Option String
  completed : Bool
  store : DbStore
  effects : List Effect

/-- An error return of `RunOnce`; `terminated` is `true` and the deferred
completion write has run. -/
def retErr (store : DbStore) (effects : List Effect) (msg : String) : RunResult :=
  { terminated := true, result := none, error := some msg, completed := true,
    store := store, effects := effects }

/-- The success return of `RunOnce`. -/
def retOk (store : DbStore) (effects : List Effect) (payload : TaskRunResultPayload) : RunResult :=
  { terminated := true, result := some payload, error := none, completed := true,
    store := store, effects := effects }

/-- The migration descriptor composed by `RunOnce` lines 65-106: a forced
baseline record scoped to the new database, with best-effort creator and
issue lineage — a failed principal lookup leaves `creator` empty, a
failed or empty issue lookup leaves `issueID` empty. -/
def mkMigrationInfo (env : Env) (task : ApiTask) (p : TaskDatabaseCreatePayload) : MigrationInfo :=
  let base : MigrationInfo :=
    { releaseVersion := env.profileVersion, version := p.schemaVersion,
      nameSpace := p.databaseName, database := p.databaseName,
      environment := task.instanceEnvironmentName,
      source := MigrationSource.UI, migrationType := MigrationType.Baseline,
      description := ("Create database"), creator := "", issueID := "",
      createDatabase := true, force := true }
  let withCreator : MigrationInfo :=
    match env.getPrincipalByID task.creatorID with
    | .error _ => base
    | .ok principal => { base with creator := principal.name }
  match env.getIssueByPipelineID task.pipelineID with
  | .error _ => withCreator
  | .ok none => withCreator
  | .ok (some issue) => { withCreator with issueID := toString issue.id }

/-- `RunOnce` lines 151-186: patch the task's database reference, then
apply labels when present, then return the result payload. -/
def runAfterDb (env : Env) (task : ApiTask) (p : TaskDatabaseCreatePayload)
    (migrationID : Nat) (version : String) (database : DatabaseRow)
    (store : DbStore) (effs : List Effect) : RunResult :=
  let tp : TaskPatch := { id := task.id, updaterID := systemBotID, databaseID := some database.id }
  let effs2 := effs ++ [Effect.patchTask tp]
  match env.patchTaskErr with
  | some e => retErr store effs2 e
  | none =>
    if p.labels = "" then
      retOk store effs2
        { detail := ("Created database \"") ++ p.databaseName ++ ("\""),
          migrationID := migrationID, version := version }
    else
      match env.getProjectByID p.projectID with
      | .error _ => retErr store effs2 (("failed to find project with ID ") ++ toString p.projectID)
      | .ok none => retErr store effs2 (("project not found with ID ") ++ toString p.projectID)
      | .ok (some _) =>
        match env.setDatabaseLabels with
        | .error _ =>
          retErr store (effs2 ++ [Effect.setLabels])
            (("failed to record database labels after creating database ") ++ toString database.id)
        | .ok _ =>
          retOk store (effs2 ++ [Effect.setLabels])
            { detail := ("Created database \"") ++ p.databaseName ++ ("\""),
              migrationID := migrationID, version := version }

/-- `RunOnce` lines 63-149 (after the admin driver is open): compose the
migration descriptor, execute the migration, then resolve the race on
the database row — create it when absent, patch only its project
reference when present. -/
def runAfterOpen (env : Env) (store : DbStore) (task : ApiTask)
    (p : TaskDatabaseCreatePayload) (statement : String) : RunResult :=
  let mi := mkMigrationInfo env task p
  match env.executeMigration mi statement with
  | .error e => retErr store [Effect.execMigration mi statement] e
  | .ok (migrationID, _) =>
    let effs := [Effect.execMigration mi statement,
                 Effect.getDatabase task.instanceID p.databaseName]
    match env.getDatabaseErr with
    | some e => retErr store effs e
    | none =>
      match storeGetDatabase store task.instanceID p.databaseName with
      | none =>
        let c : DatabaseCreate :=
          { creatorID := systemBotID, projectID := p.projectID,
            instanceID := task.instanceID, environmentID := task.instanceEnvironmentID,
            name := p.databaseName, characterSet := p.characterSet,
            collation := p.collation, labels := p.labels,
            schemaVersion := p.schemaVersion }
        match env.createDatabaseErr with
        | some e => retErr store (effs ++ [Effect.createDatabase c]) e
        | none =>
          let created := storeCreateDatabase store c
          runAfterDb env task p migrationID mi.version created.1 created.2
            (effs ++ [Effect.createDatabase c])
      | some database =>
        let pt : DatabasePatch :=
          { id := database.id, updaterID := systemBotID, projectID := some p.projectID }
        match env.patchDatabaseErr with
        | some e => retErr store (effs ++ [Effect.patchDatabase pt]) e
        | none =>
          match storePatchDatabase store pt with
          | .error e => retErr store (effs ++ [Effect.patchDatabase pt]) e
          | .ok updated =>
            runAfterDb env task p migrationID mi.version updated.1 updated.2
              (effs ++ [Effect.patchDatabase pt])

/-- Embedding of `RunOnce` (lines 38-187): unmarshal the payload, reject
an empty trimmed statement, open the admin driver (closed on every later
exit path), and continue with `runAfterOpen`.  Every return sets the
completion flag, mirroring the deferred `atomic.StoreInt32`. -/
def runOnce (env : Env) (store : DbStore) (task : ApiTask) : RunResult :=
  match task.payload with
  | none => retErr store [] ("invalid create database payload")
  | some p =>
    let statement := trimString p.statement
    if statement = "" then retErr store [] ("empty create database statement")
    else
      match env.getAdminDriver with
      | .error e => retErr store [Effect.openDriver] e
      | .ok _ =>
        let inner := runAfterOpen env store task p statement
        { inner with effects := Effect.openDriver :: (inner.effects ++ [Effect.closeDriver]) }

/-- The executor struct: an atomically read completion flag. -/
structure DatabaseCreateTaskExecutor where
  completed : Bool
deriving DecidableEq, Repr

/-- `NewDatabaseCreateTaskExecutor`: the flag starts unset. -/
def newDatabaseCreateTaskExecutor : DatabaseCreateTaskExecutor :=
  { completed := false }

/-- `IsCompleted` (lines 28-30): the atomic load of the flag. -/
def isCompleted (e : DatabaseCreateTaskExecutor) : Bool :=
  e.completed

/-- The executor state after one `RunOnce` attempt. -/
def execAfterRun (r : RunResult) : DatabaseCreateTaskExecutor :=
  { completed := r.completed }

/- ### Concrete inputs used by the witness theorems. -/

def envOkBase : Env :=
  { profileVersion := ("1.0.0"),
    getAdminDriver := .ok (),
    getPrincipalByID := fun _ => .ok { name := ("alice") },
    getIssueByPipelineID := fun _ => .ok (some { id := 42 }),
    executeMigration := fun mi _ => .ok (7, mi.version),
    getDatabaseErr := none,
    createDatabaseErr := none,
    patchDatabaseErr := none,
    patchTaskErr := none,
    getProjectByID := fun i => .ok (some { id := i }),
    setDatabaseLabels := .ok () }

def payloadW : TaskDatabaseCreatePayload :=
  { projectID := 3, databaseName := ("db1"), statement := ("CREATE DATABASE db1"),
    characterSet := ("UTF8"), collation := ("C"), labels := "", schemaVersion := ("v1") }

def taskW : ApiTask :=
  { id := 10, creatorID := 20, pipelineID := 30, instanceID := 40,
    instanceName := ("pg-1"), instanceEnvironmentID := 50,
    instanceEnvironmentName := ("Prod"), payload := some payloadW }

def storeW : DbStore := { rows := [], nextID := 0 }

/- ### Shared helper lemmas. -/

theorem runAfterDb_terminated_completed (env : Env) (task : ApiTask)
    (p : TaskDatabaseCreatePayload) (migrationID : Nat) (version : String)
    (database : DatabaseRow) (store : DbStore) (effs : List Effect) :
    (runAfterDb env task p migrationID version database store effs).terminated = true ∧
    (runAfterDb env task p migrationID version database store effs).completed = true := by
  simp only [runAfterDb, retErr, retOk]
  repeat' split
  all_goals exact ⟨rfl, rfl⟩

theorem runAfterOpen_terminated_completed (env : Env) (store : DbStore) (task : ApiTask)
    (p : TaskDatabaseCreatePayload) (statement : String) :
    (runAfterOpen env store task p statement).terminated = true ∧
    (runAfterOpen env store task p statement).completed = true := by
  simp only [runAfterOpen, retErr]
  repeat' split
  all_goals first
    | exact ⟨rfl, rfl⟩
    | exact runAfterDb_terminated_completed ..

theorem runOnce_terminated_completed (env : Env) (store : DbStore) (task : ApiTask) :
    (runOnce env store task).terminated = true ∧
    (runOnce env store task).completed = true := by
  simp only [runOnce, retErr]
  repeat' split
  all_goals first
    | exact ⟨rfl, rfl⟩
    | exact runAfterOpen_terminated_completed ..

/- ### Claim theorems. -/

/-- C9: every call to the Database-Create executor's `RunOnce` returns
`terminated = true`, on every exit path — payload error, empty
statement, driver or store failure, and success alike; the executor
never asks the scheduler to re-invoke it. -/
theorem c9_runOnce_always_terminated (env : Env) (store : DbStore) (task : ApiTask) :
    (runOnce env store task).terminated = true :=
  (runOnce_terminated_completed env store task).1

/-- C3: `IsCompleted` is false before the first `RunOnce` call, and true
after any `RunOnce` call that returns `terminated = true` — including
calls returning via an error path — because the completion flag is
written by a deferred store on every exit path of `RunOnce`. -/
theorem c3_completion_flag :
    isCompleted newDatabaseCreateTaskExecutor = false ∧
    ∀ (env : Env) (store : DbStore) (task : ApiTask),
      (runOnce env store task).terminated = true →
      isCompleted (execAfterRun (runOnce env store task)) = true := by
  refine ⟨rfl, ?_⟩
  intro env store task _
  exact (runOnce_terminated_completed env store task).2

/-- Witness for C3 at a concrete environment, store and task. -/
theorem c3_completion_flag_witness :
    isCompleted newDatabaseCreateTaskExecutor = false ∧
    isCompleted (execAfterRun (runOnce envOkBase storeW taskW)) = true :=
  ⟨c3_completion_flag.1,
   c3_completion_flag.2 envOkBase storeW taskW (runOnce_terminated_completed envOkBase storeW taskW).1⟩

/-- C2: for a payload whose statement is empty after trimming, `RunOnce`
returns `terminated = true` with a non-nil error and performs zero
writes: no driver connection is opened, no migration is executed, no
database row is created or patched, no task patch is issued, and the
store is unchanged. -/
theorem c2_empty_statement_no_writes (env : Env) (store : DbStore) (task : ApiTask)
    (p : TaskDatabaseCreatePayload)
    (hp : task.payload = some p) (hs : trimString p.statement = "") :
    (runOnce env store task).terminated = true ∧
    (runOnce env store task).error.isSome = true ∧
    (runOnce env store task).result = none ∧
    (runOnce env store task).effects = [] ∧
    (runOnce env store task).store = store := by
  simp only [runOnce, hp, hs, retErr]
  exact ⟨rfl, rfl, rfl, rfl, rfl⟩

def payloadBlank : TaskDatabaseCreatePayload :=
  { payloadW with statement := ("  \n\t ") }

def taskBlank : ApiTask :=
  { taskW with payload := some payloadBlank }

/-- Witness for C2 at a concrete all-whitespace statement. -/
theorem c2_empty_statement_no_writes_witness :
    (runOnce envOkBase storeW taskBlank).terminated = true ∧
    (runOnce envOkBase storeW taskBlank).error.isSome = true ∧
    (runOnce envOkBase storeW taskBlank).result = none ∧
    (runOnce envOkBase storeW taskBlank).effects = [] ∧
    (runOnce envOkBase storeW taskBlank).store = storeW :=
  c2_empty_statement_no_writes envOkBase storeW taskBlank payloadBlank rfl (by decide)

theorem runAfterDb_effects_mem (env : Env) (task : ApiTask) (p : TaskDatabaseCreatePayload)
    (migrationID : Nat) (version : String) (database : DatabaseRow)
    (store : DbStore) (effs : List Effect) (x : Effect) (hx : x ∈ effs) :
    x ∈ (runAfterDb env task p migrationID version database store effs).effects := by
  simp only [runAfterDb, retErr, retOk]
  repeat' split
  all_goals simp [List.mem_append, hx]

theorem runAfterOpen_effects_execMigration (env : Env) (store : DbStore) (task : ApiTask)
    (p : TaskDatabaseCreatePayload) (statement : String) :
    Effect.execMigration (mkMigrationInfo env task p) statement ∈
      (runAfterOpen env store task p statement).effects := by
  simp only [runAfterOpen, retErr]
  repeat' split
  all_goals first
    | exact runAfterDb_effects_mem _ _ _ _ _ _ _ _ _ (List.mem_cons_self _ _)
    | simp [retErr]

/-- C7: failure to resolve the invoking principal or the originating
issue is never fatal: the corresponding descriptor field stays empty and
the executor still proceeds to execute the migration instead of
returning early for that reason. -/
theorem c7_lineage_best_effort (env : Env) (store : DbStore) (task : ApiTask)
    (p : TaskDatabaseCreatePayload) (eP eI : String)
    (hp : task.payload = some p)
    (hne : ¬ trimString p.statement = "")
    (hdrv : env.getAdminDriver = Except.ok ())
    (hprin : env.getPrincipalByID task.creatorID = Except.error eP)
    (hiss : env.getIssueByPipelineID task.pipelineID = Except.error eI) :
    (mkMigrationInfo env task p).creator = "" ∧
    (mkMigrationInfo env task p).issueID = "" ∧
    Effect.execMigration (mkMigrationInfo env task p) (trimString p.statement) ∈
      (runOnce env store task).effects := by
  refine ⟨?_, ?_, ?_⟩
  · simp [mkMigrationInfo, hprin, hiss]
  · simp [mkMigrationInfo, hprin, hiss]
  · simp only [runOnce, hp, if_neg hne, hdrv]
    exact List.mem_cons_of_mem _
      (List.mem_append_left _ (runAfterOpen_effects_execMigration env store task p _))

def envLineageFail : Env :=
  { envOkBase with
    getPrincipalByID := fun _ => .error ("principal not found"),
    getIssueByPipelineID := fun _ => .error ("issue not found") }

/-- Witness for C7 at a concrete environment whose principal and issue
lookups both fail. -/
theorem c7_lineage_best_effort_witness :
    (mkMigrationInfo envLineageFail taskW payloadW).creator = "" ∧
    (mkMigrationInfo envLineageFail taskW payloadW).issueID = "" ∧
    Effect.execMigration (mkMigrationInfo envLineageFail taskW payloadW)
        (trimString payloadW.statement) ∈
      (runOnce envLineageFail storeW taskW).effects :=
  c7_lineage_best_effort envLineageFail storeW taskW payloadW
    ("principal not found") ("issue not found") rfl (by decide) rfl rfl rfl

theorem dropAfterFirst_append_of_not_mem (c : Char) (l r : List Char) (h : c ∉ l) :
    dropAfterFirst c (l ++ r) = dropAfterFirst c r := by
  induction l with
  | nil => simp
  | cons a t ih =>
    simp only [List.mem_cons, not_or] at h
    simp only [List.cons_append, dropAfterFirst]
    rw [if_neg (fun hac => h.1 hac.symm)]
    exact ih h.2

theorem takeBeforeLastClose_append (l : List Char) :
    takeBeforeLastClose (l ++ [')']) = some l := by
  simp [takeBeforeLastClose, List.reverse_append, dropAfterFirst]

theorem trimChars_of_edges (a b : Char) (m : List Char)
    (ha : isSpaceChar a = false) (hb : isSpaceChar b = false) :
    trimChars (a :: (m ++ [b])) = a :: (m ++ [b]) := by
  simp [trimChars, List.dropWhile_cons, ha, hb, List.reverse_append]

theorem splitColsLoop_nil : splitColsLoop [] = some [] := by
  unfold splitColsLoop
  simp

theorem ccToken_whole (e : List Char) :
    ccToken ('(' :: ('(' :: (e ++ [')', ')']))) = '(' :: ('(' :: (e ++ [')', ')'])) := by
  simp [ccToken, List.reverse_append, ccSuffix]

theorem splitColsLoop_expression (e : List Char) :
    splitColsLoop ('(' :: ('(' :: (e ++ [')', ')']))) =
      some ['(' :: ('(' :: (e ++ [')', ')']))] := by
  unfold splitColsLoop
  simp [startsWithCC, ccToken_whole, List.drop_length]
  rw [show trimChars (dropLeadingComma (trimChars ([] : List Char))) = [] from rfl,
    splitColsLoop_nil]
  have h := trimChars_of_edges '(' ')' ('(' :: (e ++ [')'])) (by decide) (by decide)
  simpa using h

theorem takeBeforeLastClose_inner (e : List Char) :
    takeBeforeLastClose ('(' :: ('(' :: (e ++ [')', ')', ')']))) =
      some ('(' :: ('(' :: (e ++ [')', ')']))) := by
  have h := takeBeforeLastClose_append ('(' :: ('(' :: (e ++ [')', ')'])))
  simpa using h

theorem outerParenContent_stmt (e : List Char) :
    outerParenContent ((("CREATE INDEX idx ON public.t USING btree ").data) ++
        ('(' :: ('(' :: ('(' :: (e ++ [')', ')', ')']))))) =
    some ('(' :: ('(' :: (e ++ [')', ')']))) := by
  unfold outerParenContent
  rw [dropAfterFirst_append_of_not_mem '(' _ _ (by decide)]
  rw [show dropAfterFirst '(' ('(' :: ('(' :: ('(' :: (e ++ [')', ')', ')'])))) =
      some ('(' :: ('(' :: (e ++ [')', ')', ')']))) from by simp [dropAfterFirst]]
  exact takeBeforeLastClose_inner e

/-- C5: the column-expression parser splits the parenthesized column
list on commas, except that a term beginning with a double parenthesis
— a parenthesized expression index — is kept as one single atomic term
even when it contains internal commas: for every expression body `e`,
an index statement whose column list is the double-parenthesized `e`
parses to exactly one term, while a plain two-column list parses to two
terms. -/
theorem c5_expression_index_atomic (e : List Char) :
    getIndexColumnExpressions
        ((("CREATE INDEX idx ON public.t USING btree ").data) ++
          ('(' :: ('(' :: ('(' :: (e ++ [')', ')', ')']))))) =
      some ['(' :: ('(' :: (e ++ [')', ')']))] ∧
    getIndexColumnExpressions
        (("CREATE UNIQUE INDEX t_pkey ON public.t USING btree (a, b)").data) =
      some [("a").data, ("b").data] := by
  constructor
  · unfold getIndexColumnExpressions
    rw [outerParenContent_stmt]
    exact splitColsLoop_expression e
  · simp [getIndexColumnExpressions, outerParenContent, dropAfterFirst, takeBeforeLastClose,
      splitColsLoop, startsWithCC, ccToken, ccSuffix, commaToken, dropLeadingComma,
      trimChars, isSpaceChar]

/-- C6: the database list returned by the instance sync contains exactly
the enumerated databases whose names are not in the denylist (the fixed
excluded list together with the engine system databases), membership
decided by exact string match, each retained entry carrying the
database's name, character set and collation. -/
theorem c6_sync_instance_denylist (env : SyncEnv) (dbs : List PgDatabaseRow)
    (meta : InstanceMeta)
    (hdbs : env.getDatabases = Except.ok dbs)
    (hok : syncInstance env = Except.ok meta) :
    ∀ m : DatabaseMeta, m ∈ meta.databaseList ↔
      ∃ d, d ∈ dbs ∧ d.name ∉ excludedDatabaseList ∧ d.name ∉ env.systemDatabases ∧
        m = { name := d.name, characterSet := d.encoding, collation := d.collate } := by
  intro m
  unfold syncInstance at hok
  split at hok
  · simp at hok
  split at hok
  · simp at hok
  rw [hdbs] at hok
  simp only [Except.ok.injEq] at hok
  rw [← hok]
  simp only [List.mem_map, List.mem_filter, Bool.not_eq_eq_eq_not, Bool.not_true,
    Bool.or_eq_false_iff, decide_eq_false_iff_not]
  constructor
  · rintro ⟨d, ⟨hd, hex, hsys⟩, heq⟩
    exact ⟨d, hd, hex, hsys, heq.symm⟩
  · rintro ⟨d, hd, hex, hsys, heq⟩
    exact ⟨d, ⟨hd, hex, hsys⟩, heq.symm⟩

def syncDbsW : List PgDatabaseRow :=
  [ { name := ("mydb"), encoding := ("UTF8"), collate := ("C") },
    { name := ("bytebase"), encoding := ("UTF8"), collate := ("C") },
    { name := ("template1"), encoding := ("UTF8"), collate := ("C") } ]

def syncEnvW : SyncEnv :=
  { getVersion := .ok ("PostgreSQL 14.0"),
    getUserList := .ok [],
    systemDatabases := [("template0"), ("template1"), ("postgres")],
    getDatabases := .ok syncDbsW,
    getConnection := .ok (),
    beginTx := .ok (),
    indexRows := .ok [],
    constraintRows := .ok [],
    tableRows := .ok [],
    viewRows := .ok [{ schemaName := ("public"), name := ("v"),
                       definition := some ("SELECT 1"), comment := "" }],
    extensionRows := .ok [],
    commitTx := .ok (),
    nowTs := 0 }

def syncSchemaW : DbSchema :=
  { name := ("mydb"), characterSet := ("UTF8"), collation := ("C"),
    tableList := [],
    viewList := [{ name := ("public") ++ (".") ++ ("v"), createdTs := 0,
                   definition := ("SELECT 1"), comment := "" }],
    extensionList := [] }

def syncMetaW : InstanceMeta :=
  { version := ("PostgreSQL 14.0"), userList := [],
    databaseList := [{ name := ("mydb"), characterSet := ("UTF8"), collation := ("C") }] }

/-- Witness for C6 at a concrete instance enumeration containing an
excluded cloud database and an engine system database. -/
theorem c6_sync_instance_denylist_witness :
    (⟨("mydb"), ("UTF8"), ("C")⟩ : DatabaseMeta) ∈ syncMetaW.databaseList ↔
      ∃ d, d ∈ syncDbsW ∧ d.name ∉ excludedDatabaseList ∧
        d.name ∉ syncEnvW.systemDatabases ∧
        (⟨("mydb"), ("UTF8"), ("C")⟩ : DatabaseMeta) =
          { name := d.name, characterSet := d.encoding, collation := d.collate } :=
  c6_sync_instance_denylist syncEnvW syncDbsW syncMetaW rfl rfl _

/-- C10: when the requested database name is not among the enumerated
databases, `SyncDBSchema` returns a not-found error without opening any
connection to the target database; when it is found, the snapshot's
character set and collation come from the first matching enumeration
entry. -/
theorem c10_database_lookup_before_connection :
    (∀ (env : SyncEnv) (name : String) (dbs : List PgDatabaseRow),
      env.getDatabases = Except.ok dbs →
      (∀ d ∈ dbs, d.name ≠ name) →
      syncDBSchema env name =
        { result := Except.error (SyncErr.notFound (("database ") ++ name ++ (" not found"))),
          openedConnection := false }) ∧
    (∀ (env : SyncEnv) (name : String) (dbs : List PgDatabaseRow) (d : PgDatabaseRow)
        (s : DbSchema),
      env.getDatabases = Except.ok dbs →
      dbs.find? (fun x => x.name == name) = some d →
      (syncDBSchema env name).result = Except.ok s →
      s.characterSet = d.encoding ∧ s.collation = d.collate) := by
  constructor
  · intro env name dbs hdbs hall
    have hfind : dbs.find? (fun x => x.name == name) = none :=
      List.find?_eq_none.mpr (fun x hx => by simpa using hall x hx)
    simp only [syncDBSchema, hdbs, hfind]
  · intro env name dbs d s hdbs hfind hok
    simp only [syncDBSchema, hdbs, hfind] at hok
    repeat' split at hok
    all_goals simp_all
    subst hok
    exact ⟨rfl, rfl⟩

/-- Witness for C10: both conjuncts applied at a concrete environment —
an unknown name gives the not-found outcome, and the found name's
snapshot carries the enumerated character set and collation. -/
theorem c10_database_lookup_before_connection_witness :
    syncDBSchema syncEnvW ("nosuchdb") =
      { result := Except.error (SyncErr.notFound (("database ") ++ ("nosuchdb") ++ (" not found"))),
        openedConnection := false } ∧
    ((syncDBSchema syncEnvW ("mydb")).result = Except.ok syncSchemaW →
      syncSchemaW.characterSet = ("UTF8") ∧ syncSchemaW.collation = ("C")) :=
  ⟨c10_database_lookup_before_connection.1 syncEnvW ("nosuchdb") syncDbsW rfl (by decide),
   fun h => c10_database_lookup_before_connection.2 syncEnvW ("mydb") syncDbsW
     { name := ("mydb"), encoding := ("UTF8"), collate := ("C") } syncSchemaW rfl rfl h⟩

theorem mapE_ok_forall {α β : Type} (f : α → Except String β) (l : List α) (out : List β)
    (h : mapE f l = Except.ok out) : ∀ a ∈ l, ∃ b, f a = Except.ok b := by
  induction l generalizing out with
  | nil => simp
  | cons a rest ih =>
    intro x hx
    unfold mapE at h
    cases ha : f a with
    | error e => rw [ha] at h; simp at h
    | ok b =>
      rw [ha] at h
      cases hrest : mapE f rest with
      | error e => rw [hrest] at h; simp at h
      | ok bs =>
        cases hx with
        | head => exact ⟨b, ha⟩
        | tail _ hx => exact ih bs hrest x hx

theorem getViews_ok_no_null (rows : List ViewRow) (out : List ViewSchema)
    (h : getViews rows = Except.ok out) : ∀ r ∈ rows, r.definition ≠ none := by
  intro r hr hnone
  obtain ⟨b, hb⟩ := mapE_ok_forall processViewRow rows out h r hr
  rw [processViewRow, hnone] at hb
  simp at hb

/-- C4 (amended): if any view has a null definition, or any other
sub-query of the pass fails, `SyncDBSchema` returns an error and
publishes no snapshot — a snapshot is returned only when every
sub-query succeeded and every view row carried a non-null definition. -/
theorem c4_no_partial_snapshot (env : SyncEnv) (name : String) (s : DbSchema)
    (hok : (syncDBSchema env name).result = Except.ok s) :
    (∃ dbs, env.getDatabases = Except.ok dbs) ∧
    env.getConnection = Except.ok () ∧
    env.beginTx = Except.ok () ∧
    (∃ ir, env.indexRows = Except.ok ir) ∧
    (∃ cr, env.constraintRows = Except.ok cr) ∧
    (∃ tr, env.tableRows = Except.ok tr) ∧
    (∃ vr, env.viewRows = Except.ok vr ∧ ∀ v ∈ vr, v.definition ≠ none) ∧
    (∃ er, env.extensionRows = Except.ok er) ∧
    env.commitTx = Except.ok () := by
  unfold syncDBSchema at hok
  repeat' split at hok
  all_goals simp_all
  exact fun v hv => getViews_ok_no_null _ _ (by assumption) v hv

def syncEnvC4W : SyncEnv := syncEnvW

/-- Witness for C4 at a concrete successful pass: the theorem applied to
it certifies that every sub-query succeeded and the single view row has
a non-null definition. -/
theorem c4_no_partial_snapshot_witness :
    (∃ dbs, syncEnvC4W.getDatabases = Except.ok dbs) ∧
    syncEnvC4W.getConnection = Except.ok () ∧
    syncEnvC4W.beginTx = Except.ok () ∧
    (∃ ir, syncEnvC4W.indexRows = Except.ok ir) ∧
    (∃ cr, syncEnvC4W.constraintRows = Except.ok cr) ∧
    (∃ tr, syncEnvC4W.tableRows = Except.ok tr) ∧
    (∃ vr, syncEnvC4W.viewRows = Except.ok vr ∧ ∀ v ∈ vr, v.definition ≠ none) ∧
    (∃ er, syncEnvC4W.extensionRows = Except.ok er) ∧
    syncEnvC4W.commitTx = Except.ok () :=
  c4_no_partial_snapshot syncEnvC4W ("mydb") syncSchemaW rfl

def viewRowEmptyDef : ViewRow :=
  { schemaName := ("public"), name := ("v"), definition := some "", comment := "" }

def syncEnvEmptyDef : SyncEnv :=
  { syncEnvW with viewRows := .ok [viewRowEmptyDef] }

def syncSchemaEmptyDef : DbSchema :=
  { name := ("mydb"), characterSet := ("UTF8"), collation := ("C"),
    tableList := [],
    viewList := [{ name := ("public") ++ (".") ++ ("v"), createdTs := 0,
                   definition := "", comment := "" }],
    extensionList := [] }

/-- Counterexample to C4 as stated: a view whose definition is the empty
string (non-null) does not make the pass fail — the sync publishes a
snapshot containing that view, so only a null definition is an error. -/
theorem c4_counterexample_empty_definition :
    syncEnvEmptyDef.viewRows = Except.ok [viewRowEmptyDef] ∧
    viewRowEmptyDef.definition = some "" ∧
    (syncDBSchema syncEnvEmptyDef ("mydb")).result = Except.ok syncSchemaEmptyDef :=
  ⟨rfl, rfl, rfl⟩

/- ### Helper lemmas for the race-resolution and result claims. -/

theorem runAfterDb_store (env : Env) (task : ApiTask) (p : TaskDatabaseCreatePayload)
    (migrationID : Nat) (version : String) (database : DatabaseRow)
    (store : DbStore) (effs : List Effect) :
    (runAfterDb env task p migrationID version database store effs).store = store := by
  simp only [runAfterDb, retErr, retOk]
  repeat' split
  all_goals rfl

theorem runAfterDb_ok (env : Env) (task : ApiTask) (p : TaskDatabaseCreatePayload)
    (migrationID : Nat) (version : String) (database : DatabaseRow)
    (store : DbStore) (effs : List Effect)
    (hpt : env.patchTaskErr = none)
    (hlab : p.labels = "" ∨
      ((∃ pr, env.getProjectByID p.projectID = Except.ok (some pr)) ∧
        env.setDatabaseLabels = Except.ok ())) :
    (runAfterDb env task p migrationID version database store effs).error = none ∧
    (runAfterDb env task p migrationID version database store effs).result =
      some { detail := ("Created database \"") ++ p.databaseName ++ ("\""),
             migrationID := migrationID, version := version } := by
  rcases hlab with h | ⟨⟨pr, hpr⟩, hsl⟩
  · simp [runAfterDb, hpt, h, retOk]
  · by_cases hpe : p.labels = ""
    · simp [runAfterDb, hpt, hpe, retOk]
    · simp [runAfterDb, hpt, hpe, hpr, hsl, retOk]

theorem storePatchDatabase_found (store : DbStore) (i : Nat) (n : String)
    (db : DatabaseRow) (pid u : Nat)
    (hfound : storeGetDatabase store i n = some db)
    (hinj : ∀ a ∈ store.rows, ∀ b ∈ store.rows, a.id = b.id → a = b) :
    storePatchDatabase store { id := db.id, updaterID := u, projectID := some pid } =
      Except.ok ({ db with projectID := pid },
        { store with
          rows := (store.rows.map
            (fun q => if q.id = db.id then { db with projectID := pid } else q)) }) := by
  have hdb := List.mem_of_find?_eq_some hfound
  unfold storePatchDatabase
  cases hf : store.rows.find? (fun r => r.id == db.id) with
  | none =>
    exfalso
    have hs : (store.rows.find? (fun r => r.id == db.id)).isSome :=
      List.find?_isSome.mpr ⟨db, hdb, by simp⟩
    rw [hf] at hs
    simp at hs
  | some r0 =>
    have hr0mem := List.mem_of_find?_eq_some hf
    have hr0id : r0.id = db.id := by simpa using List.find?_some hf
    have hr0 : r0 = db := hinj r0 hr0mem db hdb hr0id
    subst hr0
    simp

theorem key_filter_eq_single (k : DatabaseRow → Bool) (rows : List DatabaseRow)
    (db : DatabaseRow) (hdb : db ∈ rows) (hk : k db = true)
    (hle : (rows.filter k).length ≤ 1) : rows.filter k = [db] := by
  have hmem : db ∈ rows.filter k := List.mem_filter.mpr ⟨hdb, hk⟩
  cases hf : rows.filter k with
  | nil => rw [hf] at hmem; cases hmem
  | cons x xs =>
    rw [hf] at hmem hle
    simp only [List.length_cons] at hle
    have hxs : xs = [] := List.length_eq_zero.mp (by omega)
    subst hxs
    simp only [List.mem_singleton] at hmem
    rw [hmem]

theorem filter_map_patch (k : DatabaseRow → Bool) (db db' : DatabaseRow)
    (hk' : k db' = true) :
    ∀ rows : List DatabaseRow, rows.filter k = [db] →
      (∀ a ∈ rows, ∀ b ∈ rows, a.id = b.id → a = b) →
      ((rows.map (fun q => if q.id = db.id then db' else q)).filter k = [db'] ∧
       (rows.map (fun q => if q.id = db.id then db' else q)).filter (fun q => !(k q)) =
         rows.filter (fun q => !(k q))) := by
  intro rows
  induction rows with
  | nil => intro h; simp at h
  | cons r rs ih =>
    intro hfil hinj
    have hinj' : ∀ a ∈ rs, ∀ b ∈ rs, a.id = b.id → a = b := fun a ha b hb =>
      hinj a (List.mem_cons_of_mem _ ha) b (List.mem_cons_of_mem _ hb)
    by_cases hkr : k r = true
    · rw [List.filter_cons_of_pos hkr] at hfil
      have hr : r = db := (List.cons_eq_cons.mp hfil).1
      have hrs : rs.filter k = [] := (List.cons_eq_cons.mp hfil).2
      subst hr
      have hnotin : ∀ q ∈ rs, q.id ≠ r.id := by
        intro q hq hqid
        have hqr : q = r := hinj q (List.mem_cons_of_mem _ hq) r (List.mem_cons_self _ _) hqid
        subst hqr
        have : ¬ k q = true := by
          have := List.filter_eq_nil_iff.mp hrs q hq
          simpa using this
        exact this hkr
      have hmap : rs.map (fun q => if q.id = r.id then db' else q) = rs := by
        have : ∀ q ∈ rs, (fun q => if q.id = r.id then db' else q) q = id q := by
          intro q hq
          simp [hnotin q hq]
        rw [List.map_congr_left this, List.map_id]
      have hhead : (if r.id = r.id then db' else r) = db' := if_pos rfl
      rw [List.map_cons, hmap, hhead]
      constructor
      · rw [List.filter_cons_of_pos hk', hrs]
      · rw [List.filter_cons_of_neg (by simp [hk']), List.filter_cons_of_neg (by simp [hkr])]
    · rw [List.filter_cons_of_neg hkr] at hfil
      have hdbrs : db ∈ rs := by
        have : db ∈ rs.filter k := hfil ▸ List.mem_cons_self _ _
        exact (List.mem_filter.mp this).1
      have hkdb : k db = true := by
        have : db ∈ rs.filter k := hfil ▸ List.mem_cons_self _ _
        exact (List.mem_filter.mp this).2
      have hrid : r.id ≠ db.id := by
        intro hqid
        have : r = db := hinj r (List.mem_cons_self _ _) db (List.mem_cons_of_mem _ hdbrs) hqid
        rw [this] at hkr
        exact hkr hkdb
      obtain ⟨ih1, ih2⟩ := ih hfil hinj'
      simp only [List.map_cons, if_neg hrid]
      constructor
      · rw [List.filter_cons_of_neg (by simpa using hkr), ih1]
      · rw [List.filter_cons_of_pos (by simp [Bool.not_eq_true] at hkr ⊢; exact hkr),
          List.filter_cons_of_pos (by simp [Bool.not_eq_true] at hkr ⊢; exact hkr), ih2]

/-- C1: after a successful `ExecuteMigration`, the executor queries the
store for the (instance, name) row; absent, it creates one attributed to
the payload's target project, and present (inserted by a concurrent
sync), it patches only that row's project reference, leaving all other
attributes unchanged — afterwards exactly one row exists for the
(instance, name) pair, it is owned by the requested project, and every
row outside that key is untouched. -/
theorem c1_race_resolution (env : Env) (store : DbStore) (task : ApiTask)
    (p : TaskDatabaseCreatePayload) (migrationID : Nat) (echoed : String)
    (hp : task.payload = some p)
    (hne : ¬ trimString p.statement = "")
    (hdrv : env.getAdminDriver = Except.ok ())
    (hex : env.executeMigration (mkMigrationInfo env task p) (trimString p.statement) =
      Except.ok (migrationID, echoed))
    (hgd : env.getDatabaseErr = none)
    (hcd : env.createDatabaseErr = none)
    (hpd : env.patchDatabaseErr = none)
    (hkey : (store.rows.filter (dbKeyMatch task.instanceID p.databaseName)).length ≤ 1)
    (hinj : ∀ a ∈ store.rows, ∀ b ∈ store.rows, a.id = b.id → a = b) :
    ((runOnce env store task).store.rows.filter
        (dbKeyMatch task.instanceID p.databaseName)).length = 1 ∧
    (∀ r ∈ (runOnce env store task).store.rows.filter
        (dbKeyMatch task.instanceID p.databaseName),
      r.projectID = p.projectID ∧
      (match storeGetDatabase store task.instanceID p.databaseName with
       | some db => r = { db with projectID := p.projectID }
       | none => r = { id := store.nextID, creatorID := systemBotID,
                       projectID := p.projectID, instanceID := task.instanceID,
                       environmentID := task.instanceEnvironmentID,
                       name := p.databaseName, characterSet := p.characterSet,
                       collation := p.collation, labels := p.labels,
                       schemaVersion := p.schemaVersion })) ∧
    ((runOnce env store task).store.rows.filter
        (fun r => !(dbKeyMatch task.instanceID p.databaseName r)) =
      store.rows.filter (fun r => !(dbKeyMatch task.instanceID p.databaseName r))) := by
  have hstep : (runOnce env store task).store =
      (runAfterOpen env store task p (trimString p.statement)).store := by
    simp only [runOnce, hp, if_neg hne, hdrv]
  rw [hstep]
  cases hfound : storeGetDatabase store task.instanceID p.databaseName with
  | none =>
    have hfind : store.rows.find? (dbKeyMatch task.instanceID p.databaseName) = none := hfound
    have hrows : (runAfterOpen env store task p (trimString p.statement)).store.rows =
        store.rows ++
          [{ id := store.nextID, creatorID := systemBotID, projectID := p.projectID,
             instanceID := task.instanceID, environmentID := task.instanceEnvironmentID,
             name := p.databaseName, characterSet := p.characterSet,
             collation := p.collation, labels := p.labels,
             schemaVersion := p.schemaVersion }] := by
      simp only [runAfterOpen, hex, hgd, hfound, hcd, runAfterDb_store, storeCreateDatabase]
    have hknew : dbKeyMatch task.instanceID p.databaseName
        { id := store.nextID, creatorID := systemBotID, projectID := p.projectID,
          instanceID := task.instanceID, environmentID := task.instanceEnvironmentID,
          name := p.databaseName, characterSet := p.characterSet,
          collation := p.collation, labels := p.labels,
          schemaVersion := p.schemaVersion } = true := by
      simp [dbKeyMatch]
    have hnil : store.rows.filter (dbKeyMatch task.instanceID p.databaseName) = [] :=
      List.filter_eq_nil_iff.mpr (fun a ha => by
        simpa using List.find?_eq_none.mp hfind a ha)
    rw [hrows]
    refine ⟨?_, ?_, ?_⟩
    · rw [List.filter_append, hnil, List.nil_append, List.filter_cons_of_pos hknew]
      rfl
    · intro r hr
      rw [List.filter_append, hnil, List.nil_append, List.filter_cons_of_pos hknew] at hr
      simp only [List.filter_nil, List.mem_singleton] at hr
      subst hr
      exact ⟨rfl, rfl⟩
    · rw [List.filter_append, List.filter_cons_of_neg (by simp [hknew]), List.filter_nil,
        List.append_nil]
  | some db =>
    have hfind : store.rows.find? (dbKeyMatch task.instanceID p.databaseName) = some db := hfound
    have hdbmem : db ∈ store.rows := List.mem_of_find?_eq_some hfind
    have hkdb : dbKeyMatch task.instanceID p.databaseName db = true := List.find?_some hfind
    have hpatch := storePatchDatabase_found store task.instanceID p.databaseName db
      p.projectID systemBotID hfound hinj
    have hrows : (runAfterOpen env store task p (trimString p.statement)).store.rows =
        store.rows.map
          (fun q => if q.id = db.id then { db with projectID := p.projectID } else q) := by
      simp only [runAfterOpen, hex, hgd, hfound, hpd, hpatch, runAfterDb_store]
    have hk' : dbKeyMatch task.instanceID p.databaseName
        { db with projectID := p.projectID } = true := by
      simpa [dbKeyMatch] using hkdb
    have hfil : store.rows.filter (dbKeyMatch task.instanceID p.databaseName) = [db] :=
      key_filter_eq_single _ store.rows db hdbmem hkdb hkey
    obtain ⟨h1, h2⟩ := filter_map_patch (dbKeyMatch task.instanceID p.databaseName) db
      { db with projectID := p.projectID } hk' store.rows hfil hinj
    rw [hrows]
    refine ⟨?_, ?_, ?_⟩
    · rw [h1]
      rfl
    · intro r hr
      rw [h1] at hr
      simp only [List.mem_singleton] at hr
      subst hr
      exact ⟨rfl, rfl⟩
    · exact h2

/-- Witness for C1 at a concrete run against an empty store: the create
branch of the race resolution. -/
theorem c1_race_resolution_witness :
    ((runOnce envOkBase storeW taskW).store.rows.filter
        (dbKeyMatch taskW.instanceID payloadW.databaseName)).length = 1 ∧
    (∀ r ∈ (runOnce envOkBase storeW taskW).store.rows.filter
        (dbKeyMatch taskW.instanceID payloadW.databaseName),
      r.projectID = payloadW.projectID ∧
      (match storeGetDatabase storeW taskW.instanceID payloadW.databaseName with
       | some db => r = { db with projectID := payloadW.projectID }
       | none => r = { id := storeW.nextID, creatorID := systemBotID,
                       projectID := payloadW.projectID, instanceID := taskW.instanceID,
                       environmentID := taskW.instanceEnvironmentID,
                       name := payloadW.databaseName, characterSet := payloadW.characterSet,
                       collation := payloadW.collation, labels := payloadW.labels,
                       schemaVersion := payloadW.schemaVersion })) ∧
    ((runOnce envOkBase storeW taskW).store.rows.filter
        (fun r => !(dbKeyMatch taskW.instanceID payloadW.databaseName r)) =
      storeW.rows.filter (fun r => !(dbKeyMatch taskW.instanceID payloadW.databaseName r))) :=
  c1_race_resolution envOkBase storeW taskW payloadW 7 ("v1") rfl (by decide) rfl rfl
    rfl rfl rfl (by decide) (by decide)

/-- C8: a successful run returns the migration id produced by the
driver's `ExecuteMigration` call together with the effective schema
version echoed back by the Migration Executor for that call, and a
human-readable detail string. -/
theorem c8_result_payload (env : Env) (store : DbStore) (task : ApiTask)
    (p : TaskDatabaseCreatePayload) (migrationID : Nat) (echoed : String)
    (hp : task.payload = some p)
    (hne : ¬ trimString p.statement = "")
    (hdrv : env.getAdminDriver = Except.ok ())
    (hex : env.executeMigration (mkMigrationInfo env task p) (trimString p.statement) =
      Except.ok (migrationID, echoed))
    (hecho : echoesVersion env)
    (hgd : env.getDatabaseErr = none)
    (hcd : env.createDatabaseErr = none)
    (hpd : env.patchDatabaseErr = none)
    (hpt : env.patchTaskErr = none)
    (hinj : ∀ a ∈ store.rows, ∀ b ∈ store.rows, a.id = b.id → a = b)
    (hlab : p.labels = "" ∨
      ((∃ pr, env.getProjectByID p.projectID = Except.ok (some pr)) ∧
        env.setDatabaseLabels = Except.ok ())) :
    (runOnce env store task).error = none ∧
    (runOnce env store task).result =
      some { detail := ("Created database \"") ++ p.databaseName ++ ("\""),
             migrationID := migrationID, version := echoed } := by
  have hv : echoed = (mkMigrationInfo env task p).version := hecho _ _ _ _ hex
  have hstepE : (runOnce env store task).error =
      (runAfterOpen env store task p (trimString p.statement)).error := by
    simp only [runOnce, hp, if_neg hne, hdrv]
  have hstepR : (runOnce env store task).result =
      (runAfterOpen env store task p (trimString p.statement)).result := by
    simp only [runOnce, hp, if_neg hne, hdrv]
  rw [hstepE, hstepR, hv]
  cases hfound : storeGetDatabase store task.instanceID p.databaseName with
  | none =>
    simp only [runAfterOpen, hex, hgd, hfound, hcd]
    exact runAfterDb_ok env task p migrationID _ _ _ _ hpt hlab
  | some db =>
    have hpatch := storePatchDatabase_found store task.instanceID p.databaseName db
      p.projectID systemBotID hfound hinj
    simp only [runAfterOpen, hex, hgd, hfound, hpd, hpatch]
    exact runAfterDb_ok env task p migrationID _ _ _ _ hpt hlab

/-- Witness for C8 at a concrete successful run. -/
theorem c8_result_payload_witness :
    (runOnce envOkBase storeW taskW).error = none ∧
    (runOnce envOkBase storeW taskW).result =
      some { detail := ("Created database \"") ++ payloadW.databaseName ++ ("\""),
             migrationID := 7, version := ("v1") } :=
  c8_result_payload envOkBase storeW taskW payloadW 7 ("v1") rfl (by decide) rfl rfl
    (by intro mi stmt id v h
        have h' : (Except.ok (7, mi.version) : Except String (Nat × String)) =
            Except.ok (id, v) := h
        simp only [Except.ok.injEq, Prod.mk.injEq] at h'
        exact h'.2.symm)
    rfl rfl rfl rfl (by decide) (Or.inl rfl)

end Bytebase
